import Mathlib

/-!
Verification of the BUFR query-engine core (QueryRunner.cpp / ResultSet.cpp
of the ioda-converters repository) against its natural-language
specification.  The C++ source is shallowly embedded: pure helpers become
Lean functions, the stateful collection/assembly loops become explicit
state-passing folds.  C++ `double` values are only ever moved, compared to
0, or filled with the missing sentinel, so they are modelled by `Rat`;
C++ `int`/`size_t` indices are modelled by `Int`/`Nat` (no arithmetic in
the embedded code can overflow the 64-bit ranges exercised here).
Out-of-bounds vector accesses, which are undefined behaviour in the
source, are modelled by `getD`-style total lookups; every such place is
noted in a comment at the definition.
-/

namespace IodaBufr

/-- The node types of the BUFR subset table, from Typ in the source headers
(values used throughout QueryRunner.cpp). -/
inductive Typ where
  | Subset
  | Sequence
  | Repeat
  | StackedRepeat
  | DelayedRep
  | FixedRep
  | DelayedRepStacked
  | DelayedBinary
  | Number
  | Character
deriving DecidableEq

/-- Raw data values of the BUFR value stream (C++ double).  The engine only
moves them, compares them with 0, and pads with the missing sentinel, so an
exact rational model is faithful. -/
abbrev Value := Rat

/-- The missing sentinel: `MissingValue = 10e10` (Constants.h, documented in
the spec as the missing sentinel). -/
def MissingValue : Value := 100000000000

/- ===================== ResultSet::splitPath (C9) ===================== -/

/-- Worker for `splitPath`: scan the characters, accumulating the current
component; a separator emits the accumulated component when it is
non-empty, and the final component is emitted when non-empty.  This is the
`find('/')` loop of ResultSet.cpp lines 405-427: substrings strictly
between separators are pushed when non-empty, and the tail after the last
separator is pushed when `start < path.size()`. -/
def splitPathAux : List Char → List Char → List (List Char)
  | [], acc => if acc.isEmpty then [] else [acc]
  | c :: rest, acc =>
      if c = '/' then
        if acc.isEmpty then splitPathAux rest [] else acc :: splitPathAux rest []
      else splitPathAux rest (acc ++ [c])

/-- `ResultSet::splitPath` (ResultSet.cpp lines 405-427). -/
def splitPath (s : String) : List String :=
  (splitPathAux s.data []).map String.mk

/-- Joining components with the separator, the construction named by the
spec round-trip law (spec side definition). -/
def joinPath : List String → String
  | [] => ""
  | [c] => c
  | c :: c2 :: rest => c ++ "/" ++ joinPath (c2 :: rest)

/-- A path component: a non-empty string free of the separator character
(a component is a maximal separator-free segment of a path). -/
def IsPathComponent (s : String) : Prop := s.data ≠ [] ∧ '/' ∉ s.data

theorem string_mk_data (s : String) : String.mk s.data = s := rfl

theorem string_data_append (a b : String) : (a ++ b).data = a.data ++ b.data := rfl

theorem splitPathAux_chew (cs : List Char) (h : '/' ∉ cs) :
    ∀ acc rest, splitPathAux (cs ++ rest) acc = splitPathAux rest (acc ++ cs) := by
  induction cs with
  | nil => intro acc rest; simp [splitPathAux]
  | cons c cs ih =>
      intro acc rest
      have hc : c ≠ '/' := fun hcc => h (by simp [hcc])
      have htail : '/' ∉ cs := fun hm => h (List.mem_cons_of_mem _ hm)
      simp only [List.cons_append, splitPathAux, if_neg hc, List.append_eq]
      rw [ih htail (acc ++ [c]) rest]
      simp

theorem splitPath_joinPath (comps : List String)
    (hne : comps ≠ [])
    (hc : ∀ c ∈ comps, IsPathComponent c) :
    splitPath (joinPath comps) = comps := by
  induction comps with
  | nil => exact absurd rfl hne
  | cons c rest ih =>
      obtain ⟨hcne, hcsep⟩ := hc c (List.mem_cons_self c rest)
      cases rest with
      | nil =>
          show (splitPathAux c.data []).map String.mk = [c]
          rw [show c.data = c.data ++ [] by simp, splitPathAux_chew c.data hcsep [] []]
          simp [splitPathAux, hcne, string_mk_data]
      | cons c2 rest2 =>
          have hjoin : (joinPath (c :: c2 :: rest2)).data
              = c.data ++ '/' :: (joinPath (c2 :: rest2)).data := by
            show (c ++ "/" ++ joinPath (c2 :: rest2)).data = _
            rw [string_data_append, string_data_append, List.append_assoc]
            rfl
          show (splitPathAux (joinPath (c :: c2 :: rest2)).data []).map String.mk = _
          rw [hjoin, splitPathAux_chew c.data hcsep [] ('/' :: (joinPath (c2 :: rest2)).data)]
          simp only [List.nil_append, splitPathAux, if_pos rfl]
          have hane : ¬ c.data.isEmpty := by
            cases hdat : c.data with
            | nil => exact absurd hdat hcne
            | cons x xs => simp
          rw [if_neg hane]
          have := ih (by simp) (fun x hx => hc x (List.mem_cons_of_mem _ hx))
          simp only [splitPath] at this
          simp [this, string_mk_data]

/-- C9: for every non-empty list of non-empty path components, splitPath of
the slash-join returns exactly the components. -/
theorem c9_splitPath_roundTrip (comps : List String)
    (hne : comps ≠ [])
    (hc : ∀ c ∈ comps, IsPathComponent c) :
    splitPath (joinPath comps) = comps :=
  splitPath_joinPath comps hne hc

/-- C9 witness: the round trip at a concrete component list. -/
theorem c9_splitPath_roundTrip_witness :
    splitPath (joinPath ["a", "bc"]) = ["a", "bc"] :=
  c9_splitPath_roundTrip ["a", "bc"] (by decide)
    (by intro c hcm; fin_cases hcm <;> exact ⟨by decide, by decide⟩)

/- ===================== Data model ===================== -/

/-- Modelled from the spec: the TypeInfo header is not under src/.  Its
numeric fields (scale, reference, bits) and unit are the ones merged in
ResultSet.cpp lines 144-152; the default constructor zero-initializes the
numeric fields and leaves the unit empty.  The classification predicates
isString / isInteger / isSigned / is64Bit live in the missing header and
are modelled as stored flags, defaulting to false. -/
structure TypeInfo where
  scale : Int := 0
  reference : Int := 0
  bits : Int := 0
  unit : String := ""
  stringFlag : Bool := false
  integerFlag : Bool := false
  signedFlag : Bool := false
  bits64Flag : Bool := false
deriving DecidableEq

def TypeInfo.isString (t : TypeInfo) : Bool := t.stringFlag

def TypeInfo.isInteger (t : TypeInfo) : Bool := t.integerFlag

def TypeInfo.isSigned (t : TypeInfo) : Bool := t.signedFlag

def TypeInfo.is64Bit (t : TypeInfo) : Bool := t.bits64Flag

/-- A query path component: mnemonic name plus optional 1-based occurrence
index (0 means "all occurrences"). -/
structure QueryComponent where
  name : String
  index : Nat
deriving DecidableEq

def defaultQC : QueryComponent := ⟨"", 0⟩

/-- The subset part of a query: either a concrete subset name or the
any-subset wildcard. -/
structure SubsetSpec where
  name : String
  isAnySubset : Bool
deriving DecidableEq

/-- A structured query, as produced by the external query parser. -/
structure Query where
  subset : SubsetSpec
  path : List QueryComponent
  queryStr : String
deriving DecidableEq

/-- Component types of a resolved target path (TargetComponent::Type). -/
inductive TargetCompType where
  | Subset
  | Repeat
  | Value
deriving DecidableEq

/-- One component of a resolved target path.  Modelled from the spec:
the Target header is not under src/; per spec section 3 a TargetComponent
is {queryComponent, branch, type}, and the `nodeId` used by ResultSet.cpp
is identified with `branch` (spec section 4.4 step 3 indexes frames with
`target.path[k].branch`). -/
structure TargetComponent where
  comp : QueryComponent
  branch : Int
  type : TargetCompType
deriving DecidableEq

def defaultTC : TargetComponent := ⟨defaultQC, 0, .Repeat⟩

/-- A resolved (or empty) target.  Modelled from the spec where the header
is missing: the fields are those read by QueryRunner.cpp / ResultSet.cpp. -/
structure Target where
  name : String := ""
  queryStr : String := ""
  nodeIdx : Int := 0
  path : List TargetComponent := []
  seqPath : List Int := []
  typeInfo : TypeInfo := {}
  dimPaths : List String := []
  exportDimIdxs : List Nat := []
deriving DecidableEq

/-- Modelled from the spec: Target::setPath lives in the missing Target
header.  Per spec section 4.2 it stores the components and derives seqPath
as the subsequence of branches whose component is a repetition type. -/
def seqPathOf (comps : List TargetComponent) : List Int :=
  (comps.filter (fun c => decide (c.type = TargetCompType.Repeat))).map (fun c => c.branch)

/-- Per-node collected data (struct NodeData, QueryRunner.cpp lines 23-26). -/
structure NodeData where
  values : List Value := []
  counts : List Int := []
deriving DecidableEq

/-- A collected frame as ResultSet.cpp reads it: the resolved targets of
its subset and the per-node data table.  The source's DataFrame owns an
OffsetArray of NodeData indexed by node number; the table is modelled as a
total function from node index (out-of-range access is undefined behaviour
in the source and yields the default empty NodeData here). -/
structure Frame where
  targets : List Target
  table : Int → NodeData

/- ===================== VectorMath helpers ===================== -/

/-- Modelled from the spec: VectorMath.h is not under src/.  `allEqual`
says whether all elements of the counts vector are equal (spec: "non-
uniform (not all elements equal)"). -/
def allEqual (l : List Int) : Bool :=
  match l with
  | [] => true
  | x :: xs => xs.all (fun y => y == x)

/-- Modelled from the spec: VectorMath `max` of a vector, the largest
element.  Call sites guard against the empty vector. -/
def vmax (l : List Int) : Int := l.foldl max (l.headD 0)

/-- Product of `dims[k..]`, i.e. `product<int>(dims.begin() + k, dims.end())`. -/
def prodFrom (dims : List Int) (k : Nat) : Int := (dims.drop k).foldl (· * ·) 1

/-- Modelled from the spec: VectorMath `slice(v, idxs)` projects the listed
indices (spec section 4.4 step 7: `dims = dims[exportDimIdxs]`).
An out-of-range index is undefined behaviour in the source; here it
yields 0. -/
def slice (v : List Int) (idxs : List Nat) : List Int := idxs.map (fun i => v.getD i 0)

/- ===================== ResultSet::getRawValues ===================== -/

/-- The errors ResultSet.cpp can raise (eckit::BadValue / BadParameter and
std::out_of_range from vector::at, distinguished by site). -/
inductive RSError where
  | emptyResultSet
  | targetOutOfRange
  | invalidTargetPath
  | incompatibleGroupBy (g t : String)
  | unknownOverrideType (s : String)
  | incompatibleOverride (f : String)
deriving DecidableEq

/-- `targets->at(idx)` with the out_of_range exception as an error. -/
def exceptAt (l : List Target) (i : Nat) : Except RSError Target :=
  match l.get? i with
  | some t => Except.ok t
  | none => Except.error RSError.targetOutOfRange

/-- The field-name lookup loop of getRawValues (lines 77-82): count the
targets before the first whose name matches; returns the list length when
no target matches (so the following at() raises). -/
def findTargetIdx (ts : List Target) (fieldName : String) : Nat :=
  match ts with
  | [] => 0
  | t :: rest => if t.name = fieldName then 0 else findTargetIdx rest fieldName + 1

/-- The group-by compatibility check of getRawValues lines 95-111: split
both dim paths and compare components from index 1 up to the shorter
length; mismatch raises the incompatible-group-by error. -/
def checkGroupBy (groupByTarget target : Target) (groupByField fieldName : String) :
    Except RSError Unit :=
  let gComps := splitPath (groupByTarget.dimPaths.getLastD "")
  let tComps := splitPath (target.dimPaths.getLastD "")
  if (List.range (min gComps.length tComps.length)).all
      (fun i => i == 0 || tComps.getD i "" == gComps.getD i "") then
    Except.ok ()
  else
    Except.error (RSError.incompatibleGroupBy groupByField fieldName)

/-- The type-info merge of getRawValues lines 144-152, applied once per
frame: reference is clamped by min, bits by max, the scale is replaced
whenever the new |scale| exceeds the (signed) accumulated scale, and the
unit keeps the first non-empty value. -/
def mergeInfo (info : TypeInfo) (t : TypeInfo) : TypeInfo :=
  { info with
    reference := min info.reference t.reference
    bits := max info.bits t.bits
    scale := if info.scale < |t.scale| then t.scale else info.scale
    unit := if info.unit = "" then t.unit else info.unit }

/-- The jagged-flag update of getRawValues lines 129-137, given the counts
vector, the running dimension value before this step, and the new
dimension value `max(dimsList[pathIdx], max(counts))`. -/
def jagUpdate (jagged : Bool) (cur newDimVal : Int) (counts : List Int) : Bool :=
  if jagged then jagged
  else
    let j1 := !(allEqual counts)
    if !j1 && (cur != 0) then cur != newDimVal else j1

/-- The per-frame inner loop of getRawValues lines 122-141: walk the target
path components except the last, breaking at the first empty counts vector,
updating the per-dimension running maxima and the jagged flag. -/
def dimsInner (frame : Frame) : List TargetComponent → Nat → List Int → Bool →
    List Int × Bool
  | [], _, dims, jagged => (dims, jagged)
  | p :: rest, pathIdx, dims, jagged =>
      let counts := (frame.table p.branch).counts
      if counts.isEmpty then (dims, jagged)
      else
        let cur := dims.getD pathIdx 0
        let newDimVal := max cur (vmax counts)
        dimsInner frame rest (pathIdx + 1) (dims.set pathIdx newDimVal)
          (jagUpdate jagged cur newDimVal counts)

/-- The state threaded through the frame loop of getRawValues lines
114-162: running dims, jagged flag, merged type info, widest dimPaths with
their export indices, and the current target variable (which the source
reuses after the loop). -/
structure DimsState where
  dimsList : List Int
  jagged : Bool
  info : TypeInfo
  dimPaths : List String
  exportDims : List Nat
  target : Target
deriving DecidableEq

/-- One iteration of the frame loop of getRawValues lines 117-162. -/
def frameStep (targetIdx : Nat) (st : DimsState) (frame : Frame) :
    Except RSError DimsState := do
  let target ← exceptAt frame.targets targetIdx
  let dj := dimsInner frame target.path.dropLast 0 st.dimsList st.jagged
  let info := mergeInfo st.info target.typeInfo
  if !target.dimPaths.isEmpty && st.dimPaths.length < target.dimPaths.length then
    pure ⟨dj.1, dj.2, info, target.dimPaths, target.exportDimIdxs, target⟩
  else
    pure ⟨dj.1, dj.2, info, st.dimPaths, st.exportDims, target⟩

/-- The whole frame loop (dims, jaggedness, type info, dim paths). -/
def dimsLoopRun (frames : List Frame) (targetIdx : Nat) (st0 : DimsState) :
    Except RSError DimsState :=
  frames.foldlM (frameStep targetIdx) st0

/-- List update at a signed index; out-of-range writes are undefined
behaviour in the source and are dropped here. -/
def setAtInt (l : List Value) (i : Int) (v : Value) : List Value :=
  if 0 ≤ i then l.set i.toNat v else l

/-- `std::copy(fragment, data.begin() + start)` (line 252): overwrite the
positions from `start` on with the fragment, in order. -/
def writeAt (data : List Value) (start : Int) (frag : List Value) : List Value :=
  (List.range frag.length).foldl
    (fun d i => setAtInt d (start + Int.ofNat i) (frag.getD i 0)) data

/-- The jagged-inflation index computation of getRawValues lines 204-243:
start with the identity indices over the fragment, compute per-dimension
insert vectors `product(dims[k..]) - counts * product(dims[k+1..])`, then,
from the innermost dimension outward, shift every index beyond the insert
point upward.  The source stores each insert in a size_t, so the "insert
needed" test `num_inserts > 0` is true exactly when the (signed) insert is
non-zero. -/
def jaggedInflate (dims : List Int) (target : Target) (frame : Frame)
    (fragLen : Nat) : List Int :=
  let idxs0 : List Int := (List.range fragLen).map (fun i => (i : Int))
  let inserts0 : List (List Int) := List.replicate dims.length [0]
  let inserts :=
    (List.range (min dims.length target.path.length)).foldl
      (fun ins repIdx =>
        ins.set repIdx
          (((frame.table ((target.path.getD repIdx defaultTC).branch)).counts).map
            (fun cnt => prodFrom dims repIdx - cnt * prodFrom dims (repIdx + 1))))
      inserts0
  ((List.range dims.length).reverse).foldl
    (fun idxs dimIdx =>
      (List.range ((inserts.getD dimIdx []).length)).foldl
        (fun idxs insertIdx =>
          let numInserts := (inserts.getD dimIdx []).getD insertIdx 0
          if numInserts != 0 then
            let dataIdx := prodFrom dims dimIdx * (insertIdx : Int) +
                prodFrom dims dimIdx - numInserts - 1
            idxs.map (fun x => if dataIdx < x then x + numInserts else x)
          else idxs)
        idxs)
    idxs0

/-- The scatter write of getRawValues lines 245-248:
`data[idxs[i] + frameIdx*rowLength] = fragment[i]`. -/
def scatterWrite (data : List Value) (idxs : List Int) (off : Int)
    (frag : List Value) : List Value :=
  (List.range frag.length).foldl
    (fun d i => setAtInt d (idxs.getD i 0 + off) (frag.getD i 0)) data

/-- The data-copy loop of getRawValues lines 192-254.  Note the source
binds `fragment` from the *previous* iteration's target (line 195) before
reassigning `target` from this frame (line 198); the carried `Target`
argument models that stale read. -/
def copyFrames (targetIdx : Nat) (jagged : Bool) (dims : List Int)
    (rowLength : Int) :
    List Frame → Nat → List Value → Target → Except RSError (List Value × Target)
  | [], _, data, t => Except.ok (data, t)
  | f :: rest, frameIdx, data, prevTarget => do
      let fragment := (f.table prevTarget.nodeIdx).values
      let target ← exceptAt f.targets targetIdx
      let data :=
        if jagged then
          scatterWrite data (jaggedInflate dims target f fragment.length)
            ((frameIdx : Int) * rowLength) fragment
        else
          writeAt data ((frameIdx : Int) * rowLength) fragment
      copyFrames targetIdx jagged dims rowLength rest (frameIdx + 1) data target

/-- The output of getRawValues: the flattened data, the projected dims, the
dim paths and the merged type info.  (The source returns these through
reference out-parameters; dimPaths elements carry a `.str()` in the source
and are modelled as the strings themselves.) -/
structure RawResult where
  data : List Value
  dims : List Int
  dimPaths : List String
  info : TypeInfo
deriving DecidableEq

/-- ResultSet::getRawValues (ResultSet.cpp lines 58-259).  The
group-by-target lookup at lines 87-90 is commented out in the source, so
`groupByTarget` is always null and the compatibility check at lines 93-112
is dead; both are kept here verbatim.  The zero-dimension lift at lines
171-177 is applied to the copy `allDims`, which the source never reads
again; it is likewise kept.  A target with an empty path makes the source
underflow `path.size() - 1` (undefined); that case is surfaced as an
error. -/
def getRawValues (frames : List Frame) (fieldName groupByField : String) :
    Except RSError RawResult :=
  match frames with
  | [] => Except.error RSError.emptyResultSet
  | f0 :: _ => do
      let targetIdx := findTargetIdx f0.targets fieldName
      let target ← exceptAt f0.targets targetIdx
      let groupByTarget : Option Target := none
      match groupByTarget with
      | some g => checkGroupBy g target groupByField fieldName
      | none => pure ()
      if target.path.isEmpty then
        Except.error RSError.invalidTargetPath
      else do
        let st0 : DimsState :=
          ⟨List.replicate (target.path.length - 1) 0, false, {}, [], [], target⟩
        let st ← dimsLoopRun frames targetIdx st0
        let allDims := st.dimsList.map (fun d => if d = 0 then 1 else d)
        let _ := allDims
        let dims1 := st.dimsList
        let rowLength := prodFrom dims1 1
        let totalRows := frames.length
        let data0 := List.replicate ((totalRows : Int) * rowLength).toNat MissingValue
        let res ← copyFrames targetIdx st.jagged dims1 rowLength frames 0 data0 st.target
        let dims2 := (dims1.set 0 (totalRows : Int))
        pure ⟨res.1, slice dims2 res.2.exportDimIdxs, st.dimPaths, st.info⟩

/- ===================== ResultSet::makeDataObject ===================== -/

/-- The element types the result object can carry (DataObject template
instantiations in ResultSet.cpp lines 323-403). -/
inductive ElemType where
  | i32
  | i64
  | u32
  | u64
  | f32
  | f64
  | str
deriving DecidableEq

/-- ResultSet::objectByTypeInfo (lines 323-369): dispatch the element type
from the merged type info alone. -/
def objectByTypeInfo (info : TypeInfo) : ElemType :=
  if info.isString then ElemType.str
  else if info.isInteger then
    if info.isSigned then
      if info.is64Bit then ElemType.i64 else ElemType.i32
    else
      if info.is64Bit then ElemType.u64 else ElemType.u32
  else
    if info.is64Bit then ElemType.f64 else ElemType.f32

/-- ResultSet::objectByType (lines 371-403): dispatch from the override
string, raising for unknown type names. -/
def objectByType (overrideType : String) : Except RSError ElemType :=
  if overrideType = "int" ∨ overrideType = "int32" then Except.ok ElemType.i32
  else if overrideType = "float" then Except.ok ElemType.f32
  else if overrideType = "double" then Except.ok ElemType.f64
  else if overrideType = "string" then Except.ok ElemType.str
  else if overrideType = "int64" then Except.ok ElemType.i64
  else Except.error (RSError.unknownOverrideType overrideType)

/-- The constructed result object: element type plus the payload fields the
source sets through setData/setDims/setFieldName/setGroupByFieldName/
setDimPaths (the per-element-type conversion lives in the missing
DataObject classes and is outside this embedding). -/
structure DataObject where
  elem : ElemType
  data : List Value
  dims : List Int
  fieldName : String
  groupByFieldName : String
  dimPaths : List String
deriving DecidableEq

/-- ResultSet::makeDataObject (lines 286-321): empty override dispatches on
the type info alone; a non-empty override is first resolved by
objectByType (which raises on unknown names) and only then checked for
numeric-versus-string compatibility. -/
def makeDataObject (fieldName groupByFieldName : String) (info : TypeInfo)
    (overrideType : String) (data : List Value) (dims : List Int)
    (dimPaths : List String) : Except RSError DataObject := do
  let elem ←
    if overrideType = "" then pure (objectByTypeInfo info)
    else do
      let e ← objectByType overrideType
      if (overrideType == "string" && !info.isString) ||
          (!(overrideType == "string") && info.isString) then
        Except.error (RSError.incompatibleOverride fieldName)
      else pure e
  pure ⟨elem, data, dims, fieldName, groupByFieldName, dimPaths⟩

/-- ResultSet::get (lines 30-56): raw values then object construction. -/
def RSget (frames : List Frame) (fieldName groupByFieldName overrideType : String) :
    Except RSError DataObject := do
  let r ← getRawValues frames fieldName groupByFieldName
  makeDataObject fieldName groupByFieldName r.info overrideType r.data r.dims r.dimPaths

/- ============ Spec-side formulations used to settle C3 and C6 ============ -/

/-- The jagged condition exactly as claim C3 words it, accumulated during
the same walk: flagged when a counts vector is non-uniform or the frame's
per-dimension maximum differs from the running maximum so far. -/
def dimsInnerLiteral (frame : Frame) : List TargetComponent → Nat → List Int → Bool →
    List Int × Bool
  | [], _, dims, flag => (dims, flag)
  | p :: rest, pathIdx, dims, flag =>
      let counts := (frame.table p.branch).counts
      if counts.isEmpty then (dims, flag)
      else
        let cur := dims.getD pathIdx 0
        let newDimVal := max cur (vmax counts)
        dimsInnerLiteral frame rest (pathIdx + 1) (dims.set pathIdx newDimVal)
          (flag || (!(allEqual counts) || (vmax counts != cur)))

/-- Frame step carrying the claim-C3-literal jagged flag. -/
def frameStepLiteral (targetIdx : Nat) (st : DimsState) (frame : Frame) :
    Except RSError DimsState := do
  let target ← exceptAt frame.targets targetIdx
  let dj := dimsInnerLiteral frame target.path.dropLast 0 st.dimsList st.jagged
  let info := mergeInfo st.info target.typeInfo
  if !target.dimPaths.isEmpty && st.dimPaths.length < target.dimPaths.length then
    pure ⟨dj.1, dj.2, info, target.dimPaths, target.exportDimIdxs, target⟩
  else
    pure ⟨dj.1, dj.2, info, st.dimPaths, st.exportDims, target⟩

/-- The frame loop with the claim-C3-literal jagged flag. -/
def dimsLoopLiteral (frames : List Frame) (targetIdx : Nat) (st0 : DimsState) :
    Except RSError DimsState :=
  frames.foldlM (frameStepLiteral targetIdx) st0

/-- The amended per-step jagged condition: a non-uniform counts vector, or
a frame maximum strictly exceeding a non-zero running maximum. -/
def jagBadStep (cur : Int) (counts : List Int) : Bool :=
  !(allEqual counts) || ((cur != 0) && decide (cur < vmax counts))

/-- The amended jagged accumulation: a plain monotone disjunction of the
per-step conditions along the same walk. -/
def dimsInnerAmended (frame : Frame) : List TargetComponent → Nat → List Int → Bool →
    List Int × Bool
  | [], _, dims, flag => (dims, flag)
  | p :: rest, pathIdx, dims, flag =>
      let counts := (frame.table p.branch).counts
      if counts.isEmpty then (dims, flag)
      else
        let cur := dims.getD pathIdx 0
        let newDimVal := max cur (vmax counts)
        dimsInnerAmended frame rest (pathIdx + 1) (dims.set pathIdx newDimVal)
          (flag || jagBadStep cur counts)

/-- Frame step carrying the amended jagged flag. -/
def frameStepAmended (targetIdx : Nat) (st : DimsState) (frame : Frame) :
    Except RSError DimsState := do
  let target ← exceptAt frame.targets targetIdx
  let dj := dimsInnerAmended frame target.path.dropLast 0 st.dimsList st.jagged
  let info := mergeInfo st.info target.typeInfo
  if !target.dimPaths.isEmpty && st.dimPaths.length < target.dimPaths.length then
    pure ⟨dj.1, dj.2, info, target.dimPaths, target.exportDimIdxs, target⟩
  else
    pure ⟨dj.1, dj.2, info, st.dimPaths, st.exportDims, target⟩

/-- The frame loop with the amended jagged flag. -/
def dimsLoopAmended (frames : List Frame) (targetIdx : Nat) (st0 : DimsState) :
    Except RSError DimsState :=
  frames.foldlM (frameStepAmended targetIdx) st0

/-- Jagged flag of a frame-loop outcome (false on error). -/
def jaggedOfE : Except RSError DimsState → Bool
  | Except.ok s => s.jagged
  | Except.error _ => false

/-- Merged type info of a frame-loop outcome (default on error). -/
def infoOfE : Except RSError DimsState → TypeInfo
  | Except.ok s => s.info
  | Except.error _ => {}

/-- Success test for an Except outcome. -/
def isOkE {ε α : Type} : Except ε α → Bool
  | Except.ok _ => true
  | Except.error _ => false

/-- The frame-loop type-info merge as a standalone fold over the per-frame
target type infos. -/
def mergeInfoList (init : TypeInfo) (ts : List TypeInfo) : TypeInfo :=
  ts.foldl mergeInfo init

/- ===================== Concrete inputs ===================== -/

/-- A resolved target with one repeat dimension: path subset(0) / repeat
branch 7 / value node 9. -/
def exT : Target :=
  { name := "F", nodeIdx := 9,
    path := [⟨⟨"*", 0⟩, 0, TargetCompType.Subset⟩,
             ⟨⟨"R", 0⟩, 7, TargetCompType.Repeat⟩,
             ⟨⟨"L", 0⟩, 9, TargetCompType.Value⟩],
    seqPath := [7], typeInfo := {}, dimPaths := ["*", "*/R"],
    exportDimIdxs := [0, 1] }

/-- A frame for exT whose table is entirely empty: the target matched zero
occurrences. -/
def exFrameC1 : Frame := ⟨[exT], fun _ => {}⟩

/-- Node table with given counts at nodes 0 and 7 and values at node 9. -/
def tblOf (cs0 cs7 : List Int) (vals : List Value) : Int → NodeData :=
  fun i =>
    if i = 0 then ⟨[], cs0⟩
    else if i = 7 then ⟨[], cs7⟩
    else if i = 9 then ⟨vals, []⟩
    else {}

/-- Frame with five occurrences of the repeat. -/
def exFrA : Frame := ⟨[exT], tblOf [1] [5] [1, 2, 3, 4, 5]⟩

/-- Frame with three occurrences of the repeat. -/
def exFrB : Frame := ⟨[exT], tblOf [1] [3] [6, 7, 8]⟩

/-- Initial frame-loop state for a three-component target path. -/
def exSt0 : DimsState := ⟨[0, 0], false, {}, [], [], exT⟩

/-- exT with type-info scale -5. -/
def exT6a : Target := { exT with typeInfo := { scale := -5 } }

/-- exT with type-info scale 3. -/
def exT6b : Target := { exT with typeInfo := { scale := 3 } }

/-- Frame whose target carries scale -5. -/
def exFr6a : Frame := ⟨[exT6a], tblOf [1] [2] [1, 2]⟩

/-- Frame whose target carries scale 3. -/
def exFr6b : Frame := ⟨[exT6b], tblOf [1] [2] [3, 4]⟩

/-- A second target under a different repeating sequence (dim path */B),
incompatible with exT's dim path */R from component 1 on. -/
def exG : Target :=
  { name := "G", nodeIdx := 5,
    path := [⟨⟨"*", 0⟩, 0, TargetCompType.Subset⟩,
             ⟨⟨"B", 0⟩, 4, TargetCompType.Repeat⟩,
             ⟨⟨"M", 0⟩, 5, TargetCompType.Value⟩],
    seqPath := [4], typeInfo := {}, dimPaths := ["*", "*/B"],
    exportDimIdxs := [0, 1] }

/-- A frame holding both exT and exG with data for exT. -/
def exFrC4 : Frame :=
  ⟨[exT, exG], fun i =>
    if i = 0 then ⟨[], [1]⟩
    else if i = 7 then ⟨[], [2]⟩
    else if i = 9 then ⟨[10, 20], []⟩
    else {}⟩

/- ===================== C1 ===================== -/

/-- C1: `get` on a field whose target matched zero occurrences in every
frame.  The source's zero-dimension lift (lines 171-177) is applied to the
copy `allDims`, which is never read again, so the row length stays 0 and
the returned array is empty with a zero dimension — not the claimed
`[nFrames, 1, 1, ...]` array of MissingValue that the source's own comment
(lines 167-170) promises.  This theorem evaluates the code at the failing
input: one frame, all counts empty. -/
theorem c1_zero_match_empty_data :
    getRawValues [exFrameC1] "F" "" =
      Except.ok ⟨[], [1, 0], ["*", "*/R"], {}⟩ := by
  rfl

/- ===================== C3 ===================== -/

/-- C3 counterexample: with per-frame repeat maxima 5 then 3 (each counts
vector uniform), the second frame's maximum differs from the running
maximum 5, so the claimed condition holds, but the code leaves the jagged
flag false (it only fires when a frame maximum strictly exceeds a non-zero
running maximum). -/
theorem c3_jagged_counterexample :
    jaggedOfE (dimsLoopRun [exFrA, exFrB] 0 exSt0) = false ∧
    jaggedOfE (dimsLoopLiteral [exFrA, exFrB] 0 exSt0) = true := by
  constructor
  · decide
  · decide

theorem bne_max_eq_decide_lt (cur v : Int) : (cur != max cur v) = decide (cur < v) := by
  rcases le_or_lt v cur with h | h
  · rw [max_eq_left h]
    simp [not_lt.mpr h]
  · rw [max_eq_right (le_of_lt h)]
    simp [bne_iff_ne, ne_of_lt h, h]

theorem jagUpdate_eq_badStep (jagged : Bool) (cur : Int) (counts : List Int) :
    jagUpdate jagged cur (max cur (vmax counts)) counts =
      (jagged || jagBadStep cur counts) := by
  cases jagged with
  | true => simp [jagUpdate]
  | false =>
      simp only [jagUpdate, jagBadStep, Bool.false_or, if_false]
      cases hu : allEqual counts with
      | false => simp
      | true =>
          cases hz : cur != 0 with
          | false => simp [hz]
          | true => simp [hz, bne_max_eq_decide_lt]

theorem dimsInner_eq_amended (frame : Frame) (comps : List TargetComponent) :
    ∀ pathIdx dims jagged,
      dimsInner frame comps pathIdx dims jagged =
        dimsInnerAmended frame comps pathIdx dims jagged := by
  induction comps with
  | nil => intro pathIdx dims jagged; rfl
  | cons p rest ih =>
      intro pathIdx dims jagged
      simp only [dimsInner, dimsInnerAmended]
      by_cases hemp : ((frame.table p.branch).counts).isEmpty
      · simp [hemp]
      · simp only [hemp, if_false, jagUpdate_eq_badStep]
        exact ih _ _ _

theorem frameStep_eq_amended (targetIdx : Nat) (st : DimsState) (frame : Frame) :
    frameStep targetIdx st frame = frameStepAmended targetIdx st frame := by
  simp only [frameStep, frameStepAmended, dimsInner_eq_amended]

/-- C3 amended: the jagged flag computed by getRawValues equals the plain
accumulated disjunction, over frames and dimensions walked, of "this
counts vector is non-uniform, or this frame's per-dimension maximum
strictly exceeds a non-zero running maximum". -/
theorem c3_jagged_amended (frames : List Frame) (targetIdx : Nat) (st0 : DimsState) :
    dimsLoopRun frames targetIdx st0 = dimsLoopAmended frames targetIdx st0 := by
  unfold dimsLoopRun dimsLoopAmended
  induction frames generalizing st0 with
  | nil => rfl
  | cons f rest ih =>
      simp only [List.foldlM, frameStep_eq_amended]
      cases h : frameStepAmended targetIdx st0 f with
      | ok st1 => exact ih st1
      | error e => rfl

/- ===================== C6 ===================== -/

/-- C6 counterexample: frames whose targets carry scales -5 then 3.  The
scale of maximum absolute value among the targets' scales is -5, but the
merge compares the new |scale| against the signed accumulator (-5), so 3
replaces it and the merged scale is 3. -/
theorem c6_scale_counterexample :
    (infoOfE (dimsLoopRun [exFr6a, exFr6b] 0 exSt0)).scale = 3 ∧
    exT6a.typeInfo.scale = -5 ∧
    exT6b.typeInfo.scale = 3 ∧
    |exT6b.typeInfo.scale| < |exT6a.typeInfo.scale| ∧
    (infoOfE (dimsLoopRun [exFr6a, exFr6b] 0 exSt0)).scale ≠ exT6a.typeInfo.scale := by
  refine ⟨by decide, by decide, by decide, by decide, by decide⟩

theorem mergeInfoList_reference (init : TypeInfo) (ts : List TypeInfo) :
    (mergeInfoList init ts).reference =
      (ts.map TypeInfo.reference).foldl min init.reference := by
  induction ts generalizing init with
  | nil => rfl
  | cons t rest ih => simpa [mergeInfoList, mergeInfo] using ih (mergeInfo init t)

theorem mergeInfoList_bits (init : TypeInfo) (ts : List TypeInfo) :
    (mergeInfoList init ts).bits = (ts.map TypeInfo.bits).foldl max init.bits := by
  induction ts generalizing init with
  | nil => rfl
  | cons t rest ih => simpa [mergeInfoList, mergeInfo] using ih (mergeInfo init t)

theorem mergeInfoList_scale (init : TypeInfo) (ts : List TypeInfo) :
    (mergeInfoList init ts).scale =
      (ts.map TypeInfo.scale).foldl (fun a s => if a < |s| then s else a) init.scale := by
  induction ts generalizing init with
  | nil => rfl
  | cons t rest ih => simpa [mergeInfoList, mergeInfo] using ih (mergeInfo init t)

theorem mergeInfoList_unit (init : TypeInfo) (ts : List TypeInfo) :
    (mergeInfoList init ts).unit =
      ((init.unit :: ts.map TypeInfo.unit).filter (fun u => !(u == ""))).headD "" := by
  induction ts generalizing init with
  | nil =>
      by_cases h : init.unit = ""
      · rw [show mergeInfoList init [] = init from rfl, h]
        rfl
      · have hb : (init.unit == "") = false := by simp [h]
        simp [mergeInfoList, List.filter_cons, hb]
  | cons t rest ih =>
      have step : mergeInfoList init (t :: rest) = mergeInfoList (mergeInfo init t) rest := rfl
      by_cases h : init.unit = ""
      · have hu : (mergeInfo init t).unit = t.unit := by simp [mergeInfo, h]
        rw [step, ih (mergeInfo init t), hu, h]
        simp [List.filter_cons]
      · have hu : (mergeInfo init t).unit = init.unit := by simp [mergeInfo, h]
        have hb : (init.unit == "") = false := by simp [h]
        rw [step, ih (mergeInfo init t), hu]
        simp [List.filter_cons, hb]

theorem foldl_min_le (l : List Int) : ∀ a, l.foldl min a ≤ a := by
  induction l with
  | nil => intro a; exact le_refl a
  | cons x rest ih =>
      intro a
      exact le_trans (ih (min a x)) (min_le_left a x)

theorem foldl_min_le_mem (l : List Int) : ∀ a x, x ∈ l → l.foldl min a ≤ x := by
  induction l with
  | nil => intro a x hx; cases hx
  | cons y rest ih =>
      intro a x hx
      cases hx with
      | head => exact le_trans (foldl_min_le rest (min a y)) (min_le_right a y)
      | tail _ hmem => exact ih (min a y) x hmem

theorem foldl_min_mem (l : List Int) : ∀ a, l.foldl min a ∈ a :: l := by
  induction l with
  | nil => intro a; exact List.mem_singleton.mpr rfl
  | cons x rest ih =>
      intro a
      have h := ih (min a x)
      rcases List.mem_cons.mp h with h1 | h2
      · rcases min_cases a x with ⟨he, _⟩ | ⟨he, _⟩
        · exact List.mem_cons.mpr (Or.inl (h1.trans he))
        · exact List.mem_cons.mpr (Or.inr (List.mem_cons.mpr (Or.inl (h1.trans he))))
      · exact List.mem_cons.mpr (Or.inr (List.mem_cons.mpr (Or.inr h2)))

theorem le_foldl_max (l : List Int) : ∀ a, a ≤ l.foldl max a := by
  induction l with
  | nil => intro a; exact le_refl a
  | cons x rest ih =>
      intro a
      exact le_trans (le_max_left a x) (ih (max a x))

theorem mem_le_foldl_max (l : List Int) : ∀ a x, x ∈ l → x ≤ l.foldl max a := by
  induction l with
  | nil => intro a x hx; cases hx
  | cons y rest ih =>
      intro a x hx
      cases hx with
      | head => exact le_trans (le_max_right a y) (le_foldl_max rest (max a y))
      | tail _ hmem => exact ih (max a y) x hmem

/-- C6 amended: the merged type info satisfies — reference is the minimum
of the default-initialized accumulator's reference and all the targets'
references (it bounds every target's reference from below and is attained
in that list); bits is dually the maximum; unit is the first non-empty
unit in frame order; and the scale is the sequential fold that replaces
the signed accumulator whenever a target's |scale| exceeds it (not the
max-by-magnitude the claim stated). -/
theorem c6_merge_characterization (init : TypeInfo) (ts : List TypeInfo) :
    (mergeInfoList init ts).reference =
        (ts.map TypeInfo.reference).foldl min init.reference ∧
    (mergeInfoList init ts).bits = (ts.map TypeInfo.bits).foldl max init.bits ∧
    (mergeInfoList init ts).unit =
        ((init.unit :: ts.map TypeInfo.unit).filter (fun u => !(u == ""))).headD "" ∧
    (mergeInfoList init ts).scale =
        (ts.map TypeInfo.scale).foldl (fun a s => if a < |s| then s else a) init.scale ∧
    (∀ t ∈ ts, (mergeInfoList init ts).reference ≤ t.reference) ∧
    (∀ t ∈ ts, t.bits ≤ (mergeInfoList init ts).bits) ∧
    (mergeInfoList init ts).reference ∈ init.reference :: ts.map TypeInfo.reference := by
  refine ⟨mergeInfoList_reference init ts, mergeInfoList_bits init ts,
    mergeInfoList_unit init ts, mergeInfoList_scale init ts, ?_, ?_, ?_⟩
  · intro t ht
    rw [mergeInfoList_reference init ts]
    exact foldl_min_le_mem _ _ _ (List.mem_map_of_mem TypeInfo.reference ht)
  · intro t ht
    rw [mergeInfoList_bits init ts]
    exact mem_le_foldl_max _ _ _ (List.mem_map_of_mem TypeInfo.bits ht)
  · rw [mergeInfoList_reference init ts]
    exact foldl_min_mem _ _

/-- C6 witness: the characterization applied at the concrete two-target
merge of the counterexample frames. -/
theorem c6_merge_characterization_witness :
    (mergeInfoList {} [exT6a.typeInfo, exT6b.typeInfo]).scale =
        ([(-5 : Int), 3].foldl (fun a s => if a < |s| then s else a) 0) ∧
    (mergeInfoList {} [exT6a.typeInfo, exT6b.typeInfo]).reference ≤
        exT6a.typeInfo.reference := by
  have h := c6_merge_characterization {} [exT6a.typeInfo, exT6b.typeInfo]
  refine ⟨?_, h.2.2.2.2.1 exT6a.typeInfo (by decide)⟩
  have hs := h.2.2.2.1
  simpa using hs

/- ===================== C10 ===================== -/

/-- C10: a non-empty override outside the supported set raises the
unknown-type error from objectByType before the numeric-versus-string
compatibility check can run, and the empty override dispatches from the
merged type info alone with no compatibility check. -/
theorem c10_override_dispatch (info : TypeInfo) (fn gn : String)
    (data : List Value) (dims : List Int) (dps : List String) (ot : String)
    (h1 : ot ≠ "")
    (h2 : ot ∉ ["int", "int32", "int64", "float", "double", "string"]) :
    makeDataObject fn gn info ot data dims dps =
        Except.error (RSError.unknownOverrideType ot) ∧
    makeDataObject fn gn info "" data dims dps =
        Except.ok ⟨objectByTypeInfo info, data, dims, fn, gn, dps⟩ := by
  simp only [List.mem_cons, List.not_mem_nil, or_false, not_or] at h2
  obtain ⟨hi, hi32, hi64, hf, hd, hs⟩ := h2
  constructor
  · have hobj : objectByType ot = Except.error (RSError.unknownOverrideType ot) := by
      simp [objectByType, hi, hi32, hi64, hf, hd, hs]
    simp only [makeDataObject, if_neg h1, hobj]
    rfl
  · simp only [makeDataObject, if_pos rfl]
    rfl

/-- C10 witness: a string-typed info with the unsupported override
"banana" (so the compatibility condition would have fired had it been
reached) raises the unknown-type error, and the empty override dispatches
from the info alone. -/
theorem c10_override_dispatch_witness :
    makeDataObject "f" "" { stringFlag := true } "banana" [] [] [] =
        Except.error (RSError.unknownOverrideType "banana") ∧
    makeDataObject "f" "" { stringFlag := true } "" [] [] [] =
        Except.ok ⟨ElemType.str, [], [], "f", "", []⟩ := by
  have h := c10_override_dispatch { stringFlag := true } "f" "" [] [] [] "banana"
    (by decide) (by decide)
  exact ⟨h.1, by rw [h.2]; rfl⟩

/- ===================== C4 ===================== -/

theorem except_bind_error {ε α β : Type} (e : ε) (k : α → Except ε β) :
    (Except.error e >>= k) = Except.error e := rfl

theorem except_bind_ok {ε α β : Type} (a : α) (k : α → Except ε β) :
    (Except.ok a >>= k) = k a := rfl

theorem exceptAt_error_eq (l : List Target) (i : Nat) (e : RSError)
    (h : exceptAt l i = Except.error e) : e = RSError.targetOutOfRange := by
  unfold exceptAt at h
  cases hg : l.get? i with
  | some t => rw [hg] at h; exact Except.noConfusion h
  | none => rw [hg] at h; injection h with he; exact he.symm

theorem frameStep_error_eq (i : Nat) (st : DimsState) (f : Frame) (e : RSError)
    (h : frameStep i st f = Except.error e) : e = RSError.targetOutOfRange := by
  unfold frameStep at h
  cases hg : exceptAt f.targets i with
  | error e2 =>
      rw [hg, except_bind_error] at h
      injection h with he
      rw [← he]
      exact exceptAt_error_eq _ _ _ hg
  | ok t =>
      rw [hg, except_bind_ok] at h
      split at h
      · exact Except.noConfusion h
      · exact Except.noConfusion h

theorem dimsLoopRun_error_eq (frames : List Frame) (i : Nat) (st0 : DimsState)
    (e : RSError) (h : dimsLoopRun frames i st0 = Except.error e) :
    e = RSError.targetOutOfRange := by
  induction frames generalizing st0 with
  | nil => exact Except.noConfusion h
  | cons f rest ih =>
      simp only [dimsLoopRun, List.foldlM] at h
      cases hg : frameStep i st0 f with
      | error e2 =>
          rw [hg, except_bind_error] at h
          injection h with he
          rw [← he]
          exact frameStep_error_eq _ _ _ _ hg
      | ok st1 =>
          rw [hg, except_bind_ok] at h
          exact ih st1 h

theorem copyFrames_error_eq (i : Nat) (jag : Bool) (dims : List Int) (rl : Int)
    (frames : List Frame) :
    ∀ (k : Nat) (data : List Value) (t : Target) (e : RSError),
      copyFrames i jag dims rl frames k data t = Except.error e →
        e = RSError.targetOutOfRange := by
  induction frames with
  | nil => intro k data t e h; exact Except.noConfusion h
  | cons f rest ih =>
      intro k data t e h
      simp only [copyFrames] at h
      cases hg : exceptAt f.targets i with
      | error e2 =>
          rw [hg, except_bind_error] at h
          injection h with he
          rw [← he]
          exact exceptAt_error_eq _ _ _ hg
      | ok t2 =>
          rw [hg, except_bind_ok] at h
          exact ih _ _ _ _ h

theorem getRawValues_error_shape (frames : List Frame) (fn g : String) (e : RSError)
    (h : getRawValues frames fn g = Except.error e) :
    e = RSError.emptyResultSet ∨ e = RSError.targetOutOfRange ∨
      e = RSError.invalidTargetPath := by
  cases frames with
  | nil =>
      simp only [getRawValues] at h
      injection h with he
      exact Or.inl he.symm
  | cons f0 rest =>
      simp only [getRawValues, pure_bind] at h
      cases hg : exceptAt f0.targets (findTargetIdx f0.targets fn) with
      | error e2 =>
          rw [hg, except_bind_error] at h
          injection h with he
          exact Or.inr (Or.inl ((he.symm).trans (exceptAt_error_eq _ _ _ hg)))
      | ok t =>
          rw [hg, except_bind_ok] at h
          split at h
          · injection h with he
            exact Or.inr (Or.inr he.symm)
          · cases hd : dimsLoopRun (f0 :: rest) (findTargetIdx f0.targets fn)
                ⟨List.replicate (t.path.length - 1) 0, false, {}, [], [], t⟩ with
            | error e2 =>
                rw [hd, except_bind_error] at h
                injection h with he
                exact Or.inr (Or.inl ((he.symm).trans (dimsLoopRun_error_eq _ _ _ _ hd)))
            | ok st =>
                rw [hd, except_bind_ok] at h
                cases hc : copyFrames (findTargetIdx f0.targets fn) st.jagged st.dimsList
                    (prodFrom st.dimsList 1) (f0 :: rest) 0
                    (List.replicate (((f0 :: rest).length : Int) *
                      prodFrom st.dimsList 1).toNat MissingValue) st.target with
                | error e2 =>
                    rw [hc, except_bind_error] at h
                    injection h with he
                    exact Or.inr (Or.inl ((he.symm).trans
                      (copyFrames_error_eq _ _ _ _ _ _ _ _ _ hc)))
                | ok res =>
                    rw [hc, except_bind_ok] at h
                    exact Except.noConfusion h

theorem objectByType_error_eq (ot : String) (e : RSError)
    (h : objectByType ot = Except.error e) : e = RSError.unknownOverrideType ot := by
  unfold objectByType at h
  split at h
  · exact Except.noConfusion h
  · split at h
    · exact Except.noConfusion h
    · split at h
      · exact Except.noConfusion h
      · split at h
        · exact Except.noConfusion h
        · split at h
          · exact Except.noConfusion h
          · injection h with he
            exact he.symm

theorem makeDataObject_error_shape (fn gn : String) (info : TypeInfo) (ot : String)
    (data : List Value) (dims : List Int) (dps : List String) (e : RSError)
    (h : makeDataObject fn gn info ot data dims dps = Except.error e) :
    e = RSError.unknownOverrideType ot ∨ e = RSError.incompatibleOverride fn := by
  unfold makeDataObject at h
  split at h
  · rw [pure_bind] at h
    exact Except.noConfusion h
  · cases hobj : objectByType ot with
    | error e2 =>
        rw [hobj, except_bind_error] at h
        injection h with he
        exact Or.inl ((he.symm).trans (objectByType_error_eq _ _ hobj))
    | ok el =>
        rw [hobj, except_bind_ok] at h
        split at h
        · rw [except_bind_error] at h
          injection h with he
          exact Or.inr he.symm
        · rw [pure_bind] at h
          exact Except.noConfusion h

/-- C4 amended: because the group-by-target lookup of getRawValues is
commented out in the source (lines 87-90), `groupByTarget` is always null,
the dim-path compatibility check is dead code, and no call to get can ever
fail with the incompatible-group-by error, whatever group-by field is
passed. -/
theorem c4_never_incompatibleGroupBy (frames : List Frame)
    (fn g ot a b : String) :
    RSget frames fn g ot ≠ Except.error (RSError.incompatibleGroupBy a b) := by
  intro h
  simp only [RSget] at h
  cases hr : getRawValues frames fn g with
  | error e =>
      rw [hr, except_bind_error] at h
      injection h with he
      rcases getRawValues_error_shape frames fn g e hr with h1 | h1 | h1 <;>
        (rw [h1] at he; exact RSError.noConfusion he)
  | ok r =>
      rw [hr, except_bind_ok] at h
      rcases makeDataObject_error_shape fn g r.info ot r.data r.dims r.dimPaths _ h with
        h1 | h1 <;> exact RSError.noConfusion h1

/-- C4 counterexample: a frame holding a requested target (dim path `*/R`)
and a group-by target (dim path `*/B`) that fail the source's own
compatibility test, yet the call succeeds instead of raising the
incompatible-group-by error the claim requires. -/
theorem c4_groupBy_counterexample :
    isOkE (getRawValues [exFrC4] "F" "G") = true ∧
    checkGroupBy exG exT "G" "F" =
      Except.error (RSError.incompatibleGroupBy "G" "F") := by
  exact ⟨rfl, rfl⟩

/- ===================== DataProvider and QueryRunner ===================== -/

/-- The DataProvider contract the core consumes (spec section 6): per-node
structural metadata and the per-cursor value stream of the current subset.
Modelled as total functions; the source accesses them only within the
subset's node and cursor ranges. -/
structure DataProvider where
  inode : Int
  nVal : Nat
  inv : Nat → Int
  val : Nat → Value
  typ : Int → Typ
  tag : Int → String
  jmpb : Int → Int
  link : Int → Int
  isc : Int → Int
  subset : String
  typeInfo : Int → TypeInfo

/-- The two node masks of __details::ProcessingMasks, modelled as total
predicates over node indices (the source uses bool vectors of length
numNodes). -/
structure Masks where
  valueNodeMask : Int → Bool
  pathNodeMask : Int → Bool

/-- QueryRunner::isQueryNode (lines 374-379). -/
def isQueryNode (prov : DataProvider) (n : Int) : Bool :=
  prov.typ n = Typ.DelayedRep || prov.typ n = Typ.FixedRep ||
    prov.typ n = Typ.DelayedRepStacked || prov.typ n = Typ.DelayedBinary

/-- Update one slot of the node-data table. -/
def updTable (t : Int → NodeData) (i : Int) (f : NodeData → NodeData) :
    Int → NodeData :=
  fun j => if j = i then f (t j) else t j

/-- Increment the last element of a counts vector
(`dataTable[nodeIdx].counts.back()++`).  An empty vector is undefined
behaviour in the source and is left unchanged here. -/
def incLast : List Int → List Int
  | [] => []
  | [x] => [x + 1]
  | x :: y :: rest => x :: incLast (y :: rest)

/-- Decrement the last element of a counts vector
(`dataTable[seqNodeIdx + 1].counts.back()--`); empty as in incLast. -/
def decLast : List Int → List Int
  | [] => []
  | [x] => [x - 1]
  | x :: y :: rest => x :: decLast (y :: rest)

/-- The collector state of QueryRunner::collectData: the open-replication
stack and its return stack (modelled bottom-first, as the source's
vectors), the active return target and its depth, and the node-data table
(the OffsetArray, modelled as a total function). -/
structure CollectState where
  currentPath : List Int
  currentPathReturns : List Int
  returnNodeIdx : Int
  lastNonZeroReturnIdx : Int
  table : Int → NodeData

/-- Initial collector state (lines 425-439). -/
def initCollectState : CollectState := ⟨[], [], -1, -1, fun _ => {}⟩

/-- Value capture (lines 444-448). -/
def valuePhase (prov : DataProvider) (masks : Masks) (c : Nat)
    (st : CollectState) : CollectState :=
  let n := prov.inv c
  if masks.valueNodeMask n then
    { st with table :=
        (updTable st.table n fun nd => { nd with values := nd.values ++ [prov.val c] }) }
  else st

/-- Sequence-count maintenance (lines 464-477): reconstruct counts by
incrementing the last count of the node whose jump-back parent is a
tracked path node, for the sequence/repeat type pairs listed. -/
def countPhase (prov : DataProvider) (masks : Masks) (c : Nat)
    (st : CollectState) : CollectState :=
  let n := prov.inv c
  if 0 < prov.jmpb n ∧ masks.pathNodeMask (prov.jmpb n) then
    let t := prov.typ n
    let jt := prov.typ (prov.jmpb n)
    if (t = Typ.Sequence ∧ (jt = Typ.Sequence ∨ jt = Typ.DelayedBinary ∨
          jt = Typ.FixedRep)) ∨ t = Typ.Repeat ∨ t = Typ.StackedRepeat then
      { st with table :=
          (updTable st.table n fun nd => { nd with counts := incLast nd.counts }) }
    else st
  else st

/-- Pop `k` entries from the two parallel stacks (lines 486-497); each
popped delayed-replication node decrements the accrued count on its child.
Popping past the bottom is undefined behaviour in the source and stops
here. -/
def popSeqs (prov : DataProvider) : Nat → List Int → List Int →
    (Int → NodeData) → List Int × List Int × (Int → NodeData)
  | 0, cp, cpr, table => (cp, cpr, table)
  | k + 1, cp, cpr, table =>
      match cp with
      | [] => (cp, cpr, table)
      | _ :: _ =>
          let seqNodeIdx := cp.getLastD 0
          let cp2 := cp.dropLast
          let cpr2 := cpr.dropLast
          let typSeqNode := prov.typ seqNodeIdx
          let table2 :=
            if typSeqNode = Typ.DelayedRep ∨ typSeqNode = Typ.DelayedRepStacked then
              updTable table (seqNodeIdx + 1) (fun nd => { nd with counts := decLast nd.counts })
            else table
          popSeqs prov k cp2 cpr2 table2

/-- The sequence-exit block (lines 479-502): when the cursor reaches the
active return node, the final cursor, or the node just after the top of
the open stack, pop both stacks down to the last non-zero return depth and
recompute the return bookkeeping from the shortened stack.  Reading
`currentPathReturns[-1]` after emptying the stack is undefined behaviour
in the source; here it yields 0. -/
def exitPhase (prov : DataProvider) (c : Nat) (st : CollectState) : CollectState :=
  let n := prov.inv c
  if 1 ≤ st.currentPath.length ∧
      (n = st.returnNodeIdx ∨ c = prov.nVal ∨
        (1 < st.currentPath.length ∧ n = st.currentPath.getLastD 0 + 1)) then
    let numPops := ((st.currentPathReturns.length : Int) - st.lastNonZeroReturnIdx).toNat
    let popped := popSeqs prov numPops st.currentPath st.currentPathReturns st.table
    let cp := popped.1
    let cpr := popped.2.1
    let lastIdx := (cpr.length : Int) - 1
    { currentPath := cp, currentPathReturns := cpr,
      returnNodeIdx := if 0 ≤ lastIdx then cpr.getD lastIdx.toNat 0 else 0,
      lastNonZeroReturnIdx := lastIdx,
      table := popped.2.2 }
  else st

/-- The link walk-up of lines 520-528: scan the open stack from the top
for the nearest enclosing replication whose `link(jmpb(.))` is non-zero;
the last assignments stand even when none is found.  `i` counts the
positions left to inspect, so the inspected vector index is `i - 1`. -/
def walkUpFrom (prov : DataProvider) (cp : List Int) (cprLen : Nat) :
    Nat → Int × Int
  | 0 => (0, 0)
  | i + 1 =>
      let r := prov.link (prov.jmpb (cp.getD i 0))
      let lastIdx := (cprLen : Int) - (i : Int)
      if r ≠ 0 then (r, lastIdx) else walkUpFrom prov cp cprLen i

/-- The replication-opening block of collectData (lines 504-533).  A
delayed-binary node whose value is 0 pushes nothing, but the trailing
`dataTable[nodeIdx + 1].counts.push_back(0)` (line 532) sits outside the
else branch and runs in every case. -/
def openPhase (prov : DataProvider) (masks : Masks) (c : Nat)
    (st : CollectState) : CollectState :=
  let n := prov.inv c
  if masks.pathNodeMask n ∧ isQueryNode prov n then
    let st2 :=
      if prov.typ n = Typ.DelayedBinary ∧ prov.val c = 0 then st
      else
        let tmpReturnNodeIdx := prov.link n
        let cp := st.currentPath ++ [n]
        let cpr := st.currentPathReturns ++ [tmpReturnNodeIdx]
        if tmpReturnNodeIdx ≠ 0 then
          ({ st with currentPath := cp, currentPathReturns := cpr, lastNonZeroReturnIdx := (cpr.length : Int) - 1, returnNodeIdx := tmpReturnNodeIdx })
        else
          if c ≠ prov.nVal then
            let rl := walkUpFrom prov cp cpr.length cp.length
            ({ st with currentPath := cp, currentPathReturns := cpr, returnNodeIdx := rl.1, lastNonZeroReturnIdx := rl.2 })
          else
            ({ st with currentPath := cp, currentPathReturns := cpr, returnNodeIdx := 0, lastNonZeroReturnIdx := 0 })
    { st2 with table :=
        (updTable st2.table (n + 1) fun nd => { nd with counts := nd.counts ++ [0] }) }
  else st

/-- One cursor step of collectData (lines 441-534): value capture, count
maintenance, sequence exit, replication opening, in source order. -/
def collectStep (prov : DataProvider) (masks : Masks) (c : Nat)
    (st : CollectState) : CollectState :=
  openPhase prov masks c (exitPhase prov c (countPhase prov masks c (valuePhase prov masks c st)))

/-- The full cursor loop of collectData over `dataCursor = 1 ..= nVal`. -/
def collectLoop (prov : DataProvider) (masks : Masks) : Nat → CollectState → CollectState
  | 0, st => st
  | k + 1, st => collectLoop prov masks k (collectStep prov masks (prov.nVal - k) st)

/-- One finalized per-target field of the DataFrame (lines 536-564). -/
structure DataField where
  target : Target
  data : List Value
  seqCounts : List (List Int)
deriving DecidableEq

/-- The finalization of one target (lines 541-563): an unresolved target
gets the missing sentinel and counts [[1]]; a resolved target gets the
collected values and, for each k, `seqCounts[k+1] = dataTable[seqPath[k] +
1].counts`, with the implicit outer `seqCounts[0] = [1]`.  The source's
resize-then-assign loop fills every slot, written here as the equivalent
cons-and-map construction. -/
def finalizeField (table : Int → NodeData) (targ : Target) : DataField :=
  if targ.nodeIdx = 0 then
    ⟨targ, [MissingValue], [[1]]⟩
  else
    ⟨targ, (table targ.nodeIdx).values,
      [1] :: targ.seqPath.map (fun s => (table (s + 1)).counts)⟩

/-- QueryRunner::collectData (lines 422-565): run the cursor loop, then
finalize every target against the final node-data table. -/
def collectData (prov : DataProvider) (masks : Masks) (targets : List Target) :
    List DataField :=
  let finalState := collectLoop prov masks prov.nVal initCollectState
  targets.map (finalizeField finalState.table)

/- ===================== C7 ===================== -/

/-- C7: finalization shape.  For an unresolved target the field is the
missing sentinel with seqCounts [[1]]; for a resolved target, seqCounts
has length |seqPath| + 1, seqCounts[0] = [1], each seqCounts[k+1] is the
counts accrued on node seqPath[k] + 1 (the child of the replication node),
and the data is the values collected at the target node.  This holds for
every frame collectData produces, whatever the final table. -/
theorem c7_finalize_shape (table : Int → NodeData) (targ : Target) :
    (targ.nodeIdx = 0 → finalizeField table targ = ⟨targ, [MissingValue], [[1]]⟩) ∧
    (targ.nodeIdx ≠ 0 →
      (finalizeField table targ).seqCounts.length = targ.seqPath.length + 1 ∧
      (finalizeField table targ).seqCounts.headD [] = [1] ∧
      (∀ k, k < targ.seqPath.length →
        (finalizeField table targ).seqCounts.getD (k + 1) [] =
          (table (targ.seqPath.getD k 0 + 1)).counts) ∧
      (finalizeField table targ).data = (table targ.nodeIdx).values) := by
  constructor
  · intro h
    simp [finalizeField, h]
  · intro h
    refine ⟨?_, ?_, ?_, ?_⟩
    · simp [finalizeField, h]
    · simp [finalizeField, h]
    · intro k hk
      simp only [finalizeField, if_neg h, List.getD_cons_succ]
      have hlt : k < (targ.seqPath.map (fun s => (table (s + 1)).counts)).length := by
        simpa using hk
      rw [List.getD_eq_getElem _ _ hlt, List.getElem_map,
        List.getD_eq_getElem _ _ hk]
    · simp [finalizeField, h]

/-- C7 witness: the finalization applied at a concrete table, for an
unresolved and for a resolved target. -/
theorem c7_finalize_shape_witness :
    finalizeField (fun _ => {}) { name := "missing" } =
      ⟨{ name := "missing" }, [MissingValue], [[1]]⟩ ∧
    (finalizeField (tblOf [1] [2] [7, 8]) exT).seqCounts.getD 1 [] =
      (tblOf [1] [2] [7, 8] 8).counts := by
  refine ⟨(c7_finalize_shape (fun _ => {}) { name := "missing" }).1 rfl, ?_⟩
  have h := ((c7_finalize_shape (tblOf [1] [2] [7, 8]) exT).2 (by decide)).2.2.1 0 (by decide)
  simpa using h

/- ===================== C2 ===================== -/

/-- C2 amended: at a cursor whose node is a tracked delayed-binary carrying
value 0 (and not a value node), the collector pushes nothing onto either
stack and touches no values, but — contrary to the claim's "do nothing" —
it still appends a fresh 0 occurrence count to dataTable[n + 1].counts:
relative to the state after the sequence-exit bookkeeping, the step is
exactly that one append. -/
theorem c2_delayedBinary_append (prov : DataProvider) (masks : Masks) (c : Nat)
    (st : CollectState)
    (h1 : masks.pathNodeMask (prov.inv c) = true)
    (h2 : prov.typ (prov.inv c) = Typ.DelayedBinary)
    (h3 : prov.val c = 0)
    (h4 : masks.valueNodeMask (prov.inv c) = false) :
    collectStep prov masks c st =
      (let e := exitPhase prov c st
       { e with table :=
           (updTable e.table (prov.inv c + 1) fun nd =>
             { nd with counts := nd.counts ++ [0] }) }) := by
  have hv : valuePhase prov masks c st = st := by
    simp [valuePhase, h4]
  have hq : isQueryNode prov (prov.inv c) = true := by
    simp [isQueryNode, h2]
  have hc : countPhase prov masks c st = st := by
    simp [countPhase, h2]
  unfold collectStep
  rw [hv, hc]
  simp [openPhase, h1, hq, h2, h3]

/-- C2 amended witness: a concrete tracked delayed-binary node (node 5,
value 0) at cursor 1 of a one-value stream. -/
theorem c2_delayedBinary_append_witness :
    collectStep
      ⟨1, 1, fun _ => 5, fun _ => 0, fun _ => Typ.DelayedBinary, fun _ => "",
        fun _ => 0, fun _ => 0, fun _ => 9, "SUB", fun _ => {}⟩
      ⟨fun _ => false, fun _ => true⟩ 1 initCollectState =
      (let e := exitPhase
          ⟨1, 1, fun _ => 5, fun _ => 0, fun _ => Typ.DelayedBinary, fun _ => "",
            fun _ => 0, fun _ => 0, fun _ => 9, "SUB", fun _ => {}⟩ 1 initCollectState
       { e with table :=
           (updTable e.table 6 fun nd => { nd with counts := nd.counts ++ [0] }) }) :=
  c2_delayedBinary_append _ _ 1 initCollectState rfl rfl rfl rfl

/-- C2 counterexample: at that same concrete input the occurrence-count
vector of node 6 (= n + 1) grows from [] to [0] — the
`dataTable[nodeIdx + 1].counts.push_back(0)` of line 532 sits outside the
delayed-binary-absent else branch — so the collector does not "do
nothing" as the claim states. -/
theorem c2_delayedBinary_counterexample :
    ((collectStep
        ⟨1, 1, fun _ => 5, fun _ => 0, fun _ => Typ.DelayedBinary, fun _ => "",
          fun _ => 0, fun _ => 0, fun _ => 9, "SUB", fun _ => {}⟩
        ⟨fun _ => false, fun _ => true⟩ 1 initCollectState).table 6).counts = [0] ∧
    ((initCollectState.table 6).counts = ([] : List Int)) ∧
    (collectStep
        ⟨1, 1, fun _ => 5, fun _ => 0, fun _ => Typ.DelayedBinary, fun _ => "",
          fun _ => 0, fun _ => 0, fun _ => 9, "SUB", fun _ => {}⟩
        ⟨fun _ => false, fun _ => true⟩ 1 initCollectState).currentPath = [] := by
  refine ⟨by decide, by decide, by decide⟩

/- ===================== QueryRunner::findTarget ===================== -/

/-- The error QueryRunner::findTarget can raise (eckit::BadParameter,
"Query string must return 1 target", carrying the query string). -/
inductive QueryError where
  | ambiguousQuery (queryStr : String)
deriving DecidableEq

/-- Strip the two framing characters of a stored tag:
`mnemonicStr.substr(1, mnemonicStr.size() - 2)` (QueryRunner.cpp line
408). -/
def stripFrame (s : String) : String :=
  String.mk ((s.data.drop 1).take (s.data.length - 2))

/-- QueryRunner::getDimInfo (lines 381-420): base dimension "*" at index
0; then for each matched branch up to the mnemonic cursor, extend the
running dim path with the stripped tag and record a new dimension when the
branch node is a replication type. -/
def getDimInfo (prov : DataProvider) (comps : List TargetComponent)
    (mnemonicCursor : Int) : List String × List Nat :=
  if 0 ≤ mnemonicCursor then
    ((List.range (mnemonicCursor.toNat + 1)).foldl
      (fun acc branchIdx =>
        let nodeIdx := (comps.getD (branchIdx + 1) defaultTC).branch
        let mnemonicStr := prov.tag nodeIdx
        let cur := acc.1 ++ "/" ++ stripFrame mnemonicStr
        if prov.typ nodeIdx = Typ.DelayedRep ∨ prov.typ nodeIdx = Typ.FixedRep ∨
            prov.typ nodeIdx = Typ.DelayedRepStacked then
          (cur, acc.2.1 ++ [cur], acc.2.2 ++ [branchIdx + 1])
        else
          (cur, acc.2.1, acc.2.2))
      ("*", ["*"], [0])).2
  else (["*"], [0])

/-- The walk state of findTarget (lines 240-257): discovered endpoint
nodes, the open-sequence stack (bottom-first, as the source's vector), the
target components under construction, the two cursors, and the last
dimension info computed at an endpoint. -/
structure WalkState where
  targetNodes : List Int
  seqPath : List Int
  comps : List TargetComponent
  tableCursor : Int
  mnemonicCursor : Int
  dimPaths : List String
  dimIdxs : List Nat
deriving DecidableEq

/-- The descend/match/endpoint part of one walk step (lines 263-284).  The
read of `query.path[mnemonicCursor + 1]` can fall outside the path
(undefined behaviour in the source); the default component's empty name
stands in for the garbage read. -/
def stepMatch (prov : DataProvider) (q : Query) (n : Int) (s : WalkState) : WalkState :=
  if prov.typ n = Typ.Sequence ∨ prov.typ n = Typ.Repeat ∨
      prov.typ n = Typ.StackedRepeat then
    let s2 :=
      if isQueryNode prov (n - 1) then
        let s3 :=
          if prov.tag n = (q.path.getD (s.mnemonicCursor + 1).toNat defaultQC).name ∧
              s.tableCursor = s.mnemonicCursor then
            { s with mnemonicCursor := s.mnemonicCursor + 1,
                     comps := s.comps.set (s.mnemonicCursor + 2).toNat
                       (let old := s.comps.getD (s.mnemonicCursor + 2).toNat defaultTC
                        { old with branch := n - 1 }) }
          else s
        { s3 with tableCursor := s3.tableCursor + 1 }
      else s
    { s2 with seqPath := s2.seqPath ++ [n] }
  else
    if s.mnemonicCursor = (q.path.length : Int) - 2 ∧ s.tableCursor = s.mnemonicCursor ∧
        prov.tag n = (q.path.getLastD defaultQC).name then
      let di := getDimInfo prov s.comps s.mnemonicCursor
      { s with targetNodes := s.targetNodes ++ [n], dimPaths := di.1, dimIdxs := di.2 }
    else s

/-- The jump-back refinement while-loop of lines 293-308, bounded by fuel
(the source loop terminates on real tables because jmpb decreases; the
callers pass fuel larger than the node range). -/
def jumpBackWhile (prov : DataProvider) : Nat → Int → Int
  | 0, j => j
  | fuel + 1, j =>
      if prov.typ j = Typ.Sequence ∧ prov.typ (j - 1) ≠ Typ.DelayedRep ∧
          prov.typ (j - 1) ≠ Typ.FixedRep ∧ prov.typ (j - 1) ≠ Typ.DelayedRepStacked ∧
          prov.typ (j - 1) ≠ Typ.DelayedBinary then
        let nj := prov.jmpb j
        if nj ≠ j then jumpBackWhile prov fuel nj else j
      else j

/-- The jump-back node for the step-back-up block (lines 288-309). -/
def computeJumpBack (prov : DataProvider) (n : Int) : Int :=
  if n < prov.isc prov.inode then
    let j0 := prov.jmpb (n + 1)
    let j1 := if j0 = 0 then prov.inode else j0
    jumpBackWhile prov ((prov.isc prov.inode - prov.inode).toNat + 2) j1
  else prov.inode

/-- Find the highest stack index at most `len - 2` holding the jump-back
node (the scan of lines 316-317, which runs pathIdx from
`seqPath.size() - 2` down to 0). -/
def findJumpIdx (seq : List Int) (jb : Int) : Option Nat :=
  ((List.range (seq.length - 1)).reverse).find? (fun i => seq.getD i 0 == jb)

/-- The cursor rewinding of lines 318-331, applied to the popped stack
entries from the top down. -/
def rewindCursors (prov : DataProvider) : List Int → Int × Int → Int × Int
  | [], tm => tm
  | s :: rest, tm =>
      let tm2 :=
        if isQueryNode prov (s - 1) then
          (tm.1 - 1, if -1 < tm.2 ∧ tm.1 = tm.2 then tm.2 - 1 else tm.2)
        else tm
      rewindCursors prov rest tm2

/-- The step-back-up block of one walk step (lines 286-335). -/
def stepBackUp (prov : DataProvider) (n : Int) (s : WalkState) : WalkState :=
  if 1 < s.seqPath.length then
    let jb := computeJumpBack prov n
    match findJumpIdx s.seqPath jb with
    | none => s
    | some p =>
        let popped := (s.seqPath.drop (p + 1)).reverse
        let tm := rewindCursors prov popped (s.tableCursor, s.mnemonicCursor)
        { s with seqPath := s.seqPath.take (p + 1), tableCursor := tm.1,
                 mnemonicCursor := tm.2 }
  else s

/-- One full iteration of the findTarget node loop (lines 259-336). -/
def walkStep (prov : DataProvider) (q : Query) (n : Int) (s : WalkState) : WalkState :=
  stepBackUp prov n (stepMatch prov q n s)

/-- The node loop, iterating nodeIdx from inode through isc(inode). -/
def walkLoop (prov : DataProvider) (q : Query) : Nat → Int → WalkState → WalkState
  | 0, _, s => s
  | k + 1, n, s => walkLoop prov q k (n + 1) (walkStep prov q n s)

/-- Set the last component's type to Value
(`targetComponents.back().type = Value`, line 252). -/
def setLastToValue (comps : List TargetComponent) : List TargetComponent :=
  comps.dropLast ++ [{ comps.getLastD defaultTC with type := TargetCompType.Value }]

/-- The initial walk state (lines 240-257): no endpoints, seqPath holding
inode, the component skeleton (subset component with branch 0, then one
Repeat component per query path entry, the last re-typed Value), cursors
at -1. -/
def initWalkState (prov : DataProvider) (q : Query) : WalkState :=
  ⟨[], [prov.inode],
    setLastToValue (⟨⟨q.subset.name, 0⟩, 0, TargetCompType.Subset⟩ ::
      q.path.map (fun pc => ⟨pc, 0, TargetCompType.Repeat⟩)),
    -1, -1, [], []⟩

/-- The complete walk of findTarget over the subset's node range. -/
def walkOut (prov : DataProvider) (q : Query) : WalkState :=
  walkLoop prov q ((prov.isc prov.inode - prov.inode + 1).toNat) prov.inode
    (initWalkState prov q)

/-- The endpoint nodes the walk discovers. -/
def walkTargetNodes (prov : DataProvider) (q : Query) : List Int :=
  (walkOut prov q).targetNodes

/-- The endpoint index of a query: `query.path.back()->index`. -/
def endpointIndex (q : Query) : Nat := (q.path.getLastD defaultQC).index

/-- The post-walk narrowing of lines 338-342: when the endpoint index is
positive and within the number of discovered endpoints, keep just that
1-based occurrence; otherwise keep the full set. -/
def narrowNodes (nodes : List Int) (idx : Nat) : List Int :=
  if 0 < idx ∧ idx ≤ nodes.length then [nodes.getD (idx - 1) 0] else nodes

/-- QueryRunner::findTarget (lines 224-371): subset applicability, the
node walk, endpoint narrowing, the ambiguity check, and target assembly
(Target::setPath derives seqPath as modelled by seqPathOf). -/
def findTarget (prov : DataProvider) (targetName : String) (q : Query) :
    Except QueryError Target :=
  if q.subset.isAnySubset = true ∨ q.subset.name = prov.subset then
    let w := walkOut prov q
    let nodes := narrowNodes w.targetNodes (endpointIndex q)
    if 1 < nodes.length then Except.error (QueryError.ambiguousQuery q.queryStr)
    else
      Except.ok
        { name := targetName, queryStr := q.queryStr,
          nodeIdx := nodes.headD 0,
          path := w.comps, seqPath := seqPathOf w.comps,
          typeInfo := if nodes.isEmpty then {} else prov.typeInfo (nodes.headD 0),
          dimPaths := if nodes.isEmpty then ["*"] else w.dimPaths,
          exportDimIdxs := if nodes.isEmpty then [0] else w.dimIdxs }
  else
    Except.ok
      { name := targetName, queryStr := q.queryStr, nodeIdx := 0, path := [],
        seqPath := [], typeInfo := {}, dimPaths := ["*"], exportDimIdxs := [0] }

/-- The node index carried by a findTarget outcome (0 on error). -/
def targetNodeIdxOf : Except QueryError Target → Int
  | Except.ok t => t.nodeIdx
  | Except.error _ => 0

/-- A provider whose subset table holds a Subset node 1 and two Number
nodes 2 and 3, both tagged BAR (two endpoint occurrences for a BAR
query). -/
def exProvA : DataProvider :=
  ⟨1, 0, fun _ => 0, fun _ => 0,
   fun n => if n = 1 then Typ.Subset else Typ.Number,
   fun n => if n = 1 then "SUB" else if n = 2 then "BAR" else
     if n = 3 then "BAR" else "X",
   fun _ => 0, fun _ => 0, fun _ => 3, "SUB", fun _ => {}⟩

/-- Like exProvA but with a single BAR node (one endpoint occurrence). -/
def exProvB : DataProvider :=
  ⟨1, 0, fun _ => 0, fun _ => 0,
   fun n => if n = 1 then Typ.Subset else Typ.Number,
   fun n => if n = 1 then "SUB" else if n = 2 then "BAR" else "X",
   fun _ => 0, fun _ => 0, fun _ => 2, "SUB", fun _ => {}⟩

/-- Query */BAR with no endpoint index. -/
def exQA : Query := ⟨⟨"", true⟩, [⟨"BAR", 0⟩], "*/BAR"⟩

/-- Query */BAR[5] with endpoint index 5. -/
def exQB : Query := ⟨⟨"", true⟩, [⟨"BAR", 5⟩], "*/BAR[5]"⟩

/- ===================== C5 ===================== -/

/-- C5: when the query applies to the subset, its endpoint component gives
no index, and the walk discovered more than one endpoint node, findTarget
fails with the ambiguous-query error carrying the offending query
string. -/
theorem c5_ambiguous_query (prov : DataProvider) (name : String) (q : Query)
    (happ : q.subset.isAnySubset = true ∨ q.subset.name = prov.subset)
    (hidx : endpointIndex q = 0)
    (hlen : 1 < (walkTargetNodes prov q).length) :
    findTarget prov name q = Except.error (QueryError.ambiguousQuery q.queryStr) := by
  unfold findTarget
  rw [if_pos happ]
  have hnar : narrowNodes (walkOut prov q).targetNodes (endpointIndex q) =
      (walkOut prov q).targetNodes := by
    rw [hidx]
    unfold narrowNodes
    rw [if_neg]
    intro hcon
    exact absurd hcon.1 (lt_irrefl 0)
  simp only [hnar]
  rw [if_pos (show 1 < (walkOut prov q).targetNodes.length from hlen)]

/-- C5 witness: the two-occurrence provider with the index-free query. -/
theorem c5_ambiguous_query_witness :
    findTarget exProvA "F" exQA =
      Except.error (QueryError.ambiguousQuery "*/BAR") :=
  c5_ambiguous_query exProvA "F" exQA (Or.inl rfl) rfl (by decide)

/- ===================== C8 ===================== -/

/-- C8: when the endpoint index exceeds the number of discovered endpoint
nodes, the narrowing of lines 338-342 keeps the full set unchanged (there
is no index-out-of-range error in findTarget's error vocabulary); with the
full set kept, more than one endpoint still yields the ambiguity error,
and exactly one endpoint resolves to that node despite the oversized
index.  Narrowing to the single 1-based occurrence happens only when
0 < index <= number of endpoints. -/
theorem c8_oversized_index_keeps_all (prov : DataProvider) (name : String) (q : Query)
    (happ : q.subset.isAnySubset = true ∨ q.subset.name = prov.subset)
    (hidx : (walkTargetNodes prov q).length < endpointIndex q) :
    narrowNodes (walkTargetNodes prov q) (endpointIndex q) = walkTargetNodes prov q ∧
    (1 < (walkTargetNodes prov q).length →
      findTarget prov name q = Except.error (QueryError.ambiguousQuery q.queryStr)) ∧
    ((walkTargetNodes prov q).length = 1 →
      isOkE (findTarget prov name q) = true ∧
      targetNodeIdxOf (findTarget prov name q) = (walkTargetNodes prov q).headD 0) := by
  have hnar : narrowNodes (walkTargetNodes prov q) (endpointIndex q) =
      walkTargetNodes prov q := by
    unfold narrowNodes
    rw [if_neg]
    intro hcon
    exact absurd (lt_of_lt_of_le hidx hcon.2) (lt_irrefl _)
  refine ⟨hnar, ?_, ?_⟩
  · intro hlen
    unfold findTarget
    rw [if_pos happ]
    simp only [show narrowNodes (walkOut prov q).targetNodes (endpointIndex q) =
      (walkOut prov q).targetNodes from hnar]
    rw [if_pos (show 1 < (walkOut prov q).targetNodes.length from hlen)]
  · intro hone
    unfold findTarget
    rw [if_pos happ]
    simp only [show narrowNodes (walkOut prov q).targetNodes (endpointIndex q) =
      (walkOut prov q).targetNodes from hnar]
    have hnot : ¬ 1 < (walkOut prov q).targetNodes.length := by
      rw [show (walkOut prov q).targetNodes.length =
        (walkTargetNodes prov q).length from rfl, hone]
      exact lt_irrefl 1
    rw [if_neg hnot]
    exact ⟨rfl, rfl⟩

/-- C8 witness: with two discovered endpoints and index 5 the set is kept
whole (and ambiguity is then reported); with one discovered endpoint and
index 5 the call succeeds and resolves to that endpoint. -/
theorem c8_oversized_index_keeps_all_witness :
    narrowNodes (walkTargetNodes exProvA exQB) (endpointIndex exQB) =
      walkTargetNodes exProvA exQB ∧
    findTarget exProvA "F" exQB =
      Except.error (QueryError.ambiguousQuery "*/BAR[5]") ∧
    isOkE (findTarget exProvB "F" exQB) = true ∧
    targetNodeIdxOf (findTarget exProvB "F" exQB) = 2 := by
  have hA := c8_oversized_index_keeps_all exProvA "F" exQB (Or.inl rfl) (by decide)
  have hB := c8_oversized_index_keeps_all exProvB "F" exQB (Or.inl rfl) (by decide)
  refine ⟨hA.1, hA.2.1 (by decide), (hB.2.2 (by decide)).1, ?_⟩
  have h2 := (hB.2.2 (by decide)).2
  rw [h2]
  decide

end IodaBufr
